import Mathlib

/-!
Verification of the NTAG424 SDM authentication library.

The development embeds the library's cryptographic pipeline as executable
Lean definitions over byte lists (`List Nat`, each element a byte value):
the AES-128 block cipher (the library delegates to `aes-128-ecb` of a
standard crypto library; we model it concretely with the FIPS-197
algorithm), the CMAC engine, the PICC decoder, the SDM session-key
derivation, and the top-level `verifySdmAuth` orchestration.
-/

namespace Ntag424

/-! ### AES-128 block cipher (FIPS-197), modelling the external `aes-128-ecb` primitive -/

/-- Forward S-box of AES, 256 entries. -/
def sbox : List Nat := [
  0x63, 0x7c, 0x77, 0x7b, 0xf2, 0x6b, 0x6f, 0xc5, 0x30, 0x01, 0x67, 0x2b, 0xfe, 0xd7, 0xab, 0x76,
  0xca, 0x82, 0xc9, 0x7d, 0xfa, 0x59, 0x47, 0xf0, 0xad, 0xd4, 0xa2, 0xaf, 0x9c, 0xa4, 0x72, 0xc0,
  0xb7, 0xfd, 0x93, 0x26, 0x36, 0x3f, 0xf7, 0xcc, 0x34, 0xa5, 0xe5, 0xf1, 0x71, 0xd8, 0x31, 0x15,
  0x04, 0xc7, 0x23, 0xc3, 0x18, 0x96, 0x05, 0x9a, 0x07, 0x12, 0x80, 0xe2, 0xeb, 0x27, 0xb2, 0x75,
  0x09, 0x83, 0x2c, 0x1a, 0x1b, 0x6e, 0x5a, 0xa0, 0x52, 0x3b, 0xd6, 0xb3, 0x29, 0xe3, 0x2f, 0x84,
  0x53, 0xd1, 0x00, 0xed, 0x20, 0xfc, 0xb1, 0x5b, 0x6a, 0xcb, 0xbe, 0x39, 0x4a, 0x4c, 0x58, 0xcf,
  0xd0, 0xef, 0xaa, 0xfb, 0x43, 0x4d, 0x33, 0x85, 0x45, 0xf9, 0x02, 0x7f, 0x50, 0x3c, 0x9f, 0xa8,
  0x51, 0xa3, 0x40, 0x8f, 0x92, 0x9d, 0x38, 0xf5, 0xbc, 0xb6, 0xda, 0x21, 0x10, 0xff, 0xf3, 0xd2,
  0xcd, 0x0c, 0x13, 0xec, 0x5f, 0x97, 0x44, 0x17, 0xc4, 0xa7, 0x7e, 0x3d, 0x64, 0x5d, 0x19, 0x73,
  0x60, 0x81, 0x4f, 0xdc, 0x22, 0x2a, 0x90, 0x88, 0x46, 0xee, 0xb8, 0x14, 0xde, 0x5e, 0x0b, 0xdb,
  0xe0, 0x32, 0x3a, 0x0a, 0x49, 0x06, 0x24, 0x5c, 0xc2, 0xd3, 0xac, 0x62, 0x91, 0x95, 0xe4, 0x79,
  0xe7, 0xc8, 0x37, 0x6d, 0x8d, 0xd5, 0x4e, 0xa9, 0x6c, 0x56, 0xf4, 0xea, 0x65, 0x7a, 0xae, 0x08,
  0xba, 0x78, 0x25, 0x2e, 0x1c, 0xa6, 0xb4, 0xc6, 0xe8, 0xdd, 0x74, 0x1f, 0x4b, 0xbd, 0x8b, 0x8a,
  0x70, 0x3e, 0xb5, 0x66, 0x48, 0x03, 0xf6, 0x0e, 0x61, 0x35, 0x57, 0xb9, 0x86, 0xc1, 0x1d, 0x9e,
  0xe1, 0xf8, 0x98, 0x11, 0x69, 0xd9, 0x8e, 0x94, 0x9b, 0x1e, 0x87, 0xe9, 0xce, 0x55, 0x28, 0xdf,
  0x8c, 0xa1, 0x89, 0x0d, 0xbf, 0xe6, 0x42, 0x68, 0x41, 0x99, 0x2d, 0x0f, 0xb0, 0x54, 0xbb, 0x16]

/-- Inverse S-box of AES, 256 entries. -/
def invSbox : List Nat := [
  0x52, 0x09, 0x6a, 0xd5, 0x30, 0x36, 0xa5, 0x38, 0xbf, 0x40, 0xa3, 0x9e, 0x81, 0xf3, 0xd7, 0xfb,
  0x7c, 0xe3, 0x39, 0x82, 0x9b, 0x2f, 0xff, 0x87, 0x34, 0x8e, 0x43, 0x44, 0xc4, 0xde, 0xe9, 0xcb,
  0x54, 0x7b, 0x94, 0x32, 0xa6, 0xc2, 0x23, 0x3d, 0xee, 0x4c, 0x95, 0x0b, 0x42, 0xfa, 0xc3, 0x4e,
  0x08, 0x2e, 0xa1, 0x66, 0x28, 0xd9, 0x24, 0xb2, 0x76, 0x5b, 0xa2, 0x49, 0x6d, 0x8b, 0xd1, 0x25,
  0x72, 0xf8, 0xf6, 0x64, 0x86, 0x68, 0x98, 0x16, 0xd4, 0xa4, 0x5c, 0xcc, 0x5d, 0x65, 0xb6, 0x92,
  0x6c, 0x70, 0x48, 0x50, 0xfd, 0xed, 0xb9, 0xda, 0x5e, 0x15, 0x46, 0x57, 0xa7, 0x8d, 0x9d, 0x84,
  0x90, 0xd8, 0xab, 0x00, 0x8c, 0xbc, 0xd3, 0x0a, 0xf7, 0xe4, 0x58, 0x05, 0xb8, 0xb3, 0x45, 0x06,
  0xd0, 0x2c, 0x1e, 0x8f, 0xca, 0x3f, 0x0f, 0x02, 0xc1, 0xaf, 0xbd, 0x03, 0x01, 0x13, 0x8a, 0x6b,
  0x3a, 0x91, 0x11, 0x41, 0x4f, 0x67, 0xdc, 0xea, 0x97, 0xf2, 0xcf, 0xce, 0xf0, 0xb4, 0xe6, 0x73,
  0x96, 0xac, 0x74, 0x22, 0xe7, 0xad, 0x35, 0x85, 0xe2, 0xf9, 0x37, 0xe8, 0x1c, 0x75, 0xdf, 0x6e,
  0x47, 0xf1, 0x1a, 0x71, 0x1d, 0x29, 0xc5, 0x89, 0x6f, 0xb7, 0x62, 0x0e, 0xaa, 0x18, 0xbe, 0x1b,
  0xfc, 0x56, 0x3e, 0x4b, 0xc6, 0xd2, 0x79, 0x20, 0x9a, 0xdb, 0xc0, 0xfe, 0x78, 0xcd, 0x5a, 0xf4,
  0x1f, 0xdd, 0xa8, 0x33, 0x88, 0x07, 0xc7, 0x31, 0xb1, 0x12, 0x10, 0x59, 0x27, 0x80, 0xec, 0x5f,
  0x60, 0x51, 0x7f, 0xa9, 0x19, 0xb5, 0x4a, 0x0d, 0x2d, 0xe5, 0x7a, 0x9f, 0x93, 0xc9, 0x9c, 0xef,
  0xa0, 0xe0, 0x3b, 0x4d, 0xae, 0x2a, 0xf5, 0xb0, 0xc8, 0xeb, 0xbb, 0x3c, 0x83, 0x53, 0x99, 0x61,
  0x17, 0x2b, 0x04, 0x7e, 0xba, 0x77, 0xd6, 0x26, 0xe1, 0x69, 0x14, 0x63, 0x55, 0x21, 0x0c, 0x7d]

/-- Round constants of the AES-128 key schedule. -/
def rcon : List Nat := [0x01, 0x02, 0x04, 0x08, 0x10, 0x20, 0x40, 0x80, 0x1b, 0x36]

/-- XOR of two 4-byte words, each output byte reduced to byte range. -/
def xorW (a b : List Nat) : List Nat := List.zipWith (fun x y => (x ^^^ y) &&& 255) a b

/-- SubWord of the key schedule: each byte through the forward S-box. -/
def subW (w : List Nat) : List Nat := w.map (fun b => sbox.getD b 0)

/-- RotWord of the key schedule: rotate a 4-byte word left by one byte. -/
def rotW (w : List Nat) : List Nat := w.drop 1 ++ w.take 1

/-- AES-128 key schedule: 44 four-byte words from a 16-byte key. -/
def keySchedule (key : List Nat) : List (List Nat) :=
  (List.range 40).foldl (fun ws j =>
    let i := j + 4
    let prev := ws.getD (i - 1) []
    let temp := if i % 4 = 0 then xorW (subW (rotW prev)) [rcon.getD (i / 4 - 1) 0, 0, 0, 0] else prev
    ws ++ [xorW (ws.getD (i - 4) []) temp])
    [key.take 4, (key.drop 4).take 4, (key.drop 8).take 4, (key.drop 12).take 4]

/-- Round key `r` (a 16-byte list) of the expanded key schedule. -/
def roundKey (ws : List (List Nat)) (r : Nat) : List Nat := ((ws.drop (4 * r)).take 4).flatten

/-- AddRoundKey: bytewise XOR of state and round key, each byte reduced to byte range. -/
def addRoundKey (rk s : List Nat) : List Nat :=
  (List.range 16).map (fun i => ((rk.getD i 0) ^^^ (s.getD i 0)) &&& 255)

/-- SubBytes: each state byte through the forward S-box. -/
def subBytes (s : List Nat) : List Nat := (List.range 16).map (fun i => sbox.getD (s.getD i 0) 0)

/-- InvSubBytes: each state byte through the inverse S-box. -/
def invSubBytes (s : List Nat) : List Nat := (List.range 16).map (fun i => invSbox.getD (s.getD i 0) 0)

/-- Source byte index of ShiftRows: bytes of column-major state, row `i % 4` rotated left. -/
def shiftRowsIdx (i : Nat) : Nat := (i % 4) + 4 * ((i / 4 + i % 4) % 4)

/-- ShiftRows transformation of the AES state. -/
def shiftRows (s : List Nat) : List Nat := (List.range 16).map (fun i => s.getD (shiftRowsIdx i) 0)

/-- Source byte index of InvShiftRows: row `i % 4` rotated right. -/
def invShiftRowsIdx (i : Nat) : Nat := (i % 4) + 4 * ((i / 4 + 4 - i % 4) % 4)

/-- InvShiftRows transformation of the AES state. -/
def invShiftRows (s : List Nat) : List Nat := (List.range 16).map (fun i => s.getD (invShiftRowsIdx i) 0)

/-- Multiplication by x in GF(2^8) with the AES reduction polynomial. -/
def xtime (b : Nat) : Nat := ((b * 2) ^^^ (if 128 ≤ b then 0x1b else 0)) % 256

/-- Russian-peasant multiplication in GF(2^8), 8 double-and-add steps. -/
def gfmulAux : Nat → Nat → Nat → Nat → Nat
  | 0, _, _, acc => acc
  | n + 1, a, b, acc => gfmulAux n (xtime a) (b / 2) (if b % 2 = 1 then (acc ^^^ a) &&& 255 else acc)

/-- Multiplication in GF(2^8) with the AES reduction polynomial. -/
def gfmul (a b : Nat) : Nat := gfmulAux 8 a b 0

/-- MixColumns matrix coefficient at row `r`, column `k` (first row `[2,3,1,1]`, circulant). -/
def mixCoef (r k : Nat) : Nat := [2, 3, 1, 1].getD ((k + 4 - r % 4) % 4) 0

/-- InvMixColumns matrix coefficient at row `r`, column `k` (first row `[14,11,13,9]`, circulant). -/
def invMixCoef (r k : Nat) : Nat := [14, 11, 13, 9].getD ((k + 4 - r % 4) % 4) 0

/-- MixColumns transformation of the AES state. -/
def mixColumns (s : List Nat) : List Nat :=
  (List.range 16).map (fun i =>
    let c := i / 4
    ((gfmul (mixCoef i 0) (s.getD (4 * c) 0)) ^^^
     (gfmul (mixCoef i 1) (s.getD (4 * c + 1) 0)) ^^^
     (gfmul (mixCoef i 2) (s.getD (4 * c + 2) 0)) ^^^
     (gfmul (mixCoef i 3) (s.getD (4 * c + 3) 0))) &&& 255)

/-- InvMixColumns transformation of the AES state. -/
def invMixColumns (s : List Nat) : List Nat :=
  (List.range 16).map (fun i =>
    let c := i / 4
    ((gfmul (invMixCoef i 0) (s.getD (4 * c) 0)) ^^^
     (gfmul (invMixCoef i 1) (s.getD (4 * c + 1) 0)) ^^^
     (gfmul (invMixCoef i 2) (s.getD (4 * c + 2) 0)) ^^^
     (gfmul (invMixCoef i 3) (s.getD (4 * c + 3) 0))) &&& 255)

/-- AES-128 encryption of one 16-byte block (FIPS-197 Cipher). -/
def aes128EncryptBlock (key block : List Nat) : List Nat :=
  let ws := keySchedule key
  let s0 := addRoundKey (roundKey ws 0) block
  let s9 := (List.range 9).foldl
    (fun s r => addRoundKey (roundKey ws (r + 1)) (mixColumns (shiftRows (subBytes s)))) s0
  addRoundKey (roundKey ws 10) (shiftRows (subBytes s9))

/-- AES-128 decryption of one 16-byte block (FIPS-197 InvCipher). -/
def aes128DecryptBlock (key block : List Nat) : List Nat :=
  let ws := keySchedule key
  let s0 := addRoundKey (roundKey ws 10) block
  let s9 := (List.range 9).foldl
    (fun s j => invMixColumns (addRoundKey (roundKey ws (9 - j)) (invSubBytes (invShiftRows s)))) s0
  addRoundKey (roundKey ws 0) (invSubBytes (invShiftRows s9))

/-! ### Byte-algebra helpers, embedded from `src/utils/crypto.ts` -/

/-- Embedding of the source `xor`: result length is the maximum of the two input
lengths; each output byte XORs the two inputs at that index, reading 0 beyond an
input's end; Buffer element assignment stores the low byte. -/
def xor (bytes1 bytes2 : List Nat) : List Nat :=
  (List.range (max bytes1.length bytes2.length)).map
    (fun i => ((bytes1.getD i 0) ^^^ (bytes2.getD i 0)) &&& 255)

/-- Embedding of the source `shiftLeft`: each output byte is the input byte shifted
left one bit (low byte kept), OR the high bit of the byte at the next higher index
(0 past the end), exactly the right-to-left carry loop of the source. -/
def shiftLeft (buffer : List Nat) : List Nat :=
  (List.range buffer.length).map
    (fun i => (((buffer.getD i 0) <<< 1) ||| (((buffer.getD (i + 1) 0) &&& 0x80) >>> 7)) &&& 0xFF)

/-- Pair of CMAC subkeys, mirroring the source `Subkeys` interface. -/
structure Subkeys where
  k1 : List Nat
  k2 : List Nat
deriving DecidableEq

/-- The 16-byte constant with 0x87 in the last byte, built in the source as
`rb = Buffer.alloc(16); rb[15] = 0x87`. -/
def rbConst : List Nat := List.replicate 15 0 ++ [0x87]

/-- Embedding of the source `generateSubkeys`: L is the encryption of the all-zero
block; K1 is `shiftLeft L`, XORed with `rbConst` when byte 0 of L has its top bit
set; K2 repeats the step from K1. -/
def generateSubkeys (key : List Nat) : Subkeys :=
  let l := aes128EncryptBlock key (List.replicate 16 0)
  let k1 := if (l.getD 0 0) &&& 0x80 ≠ 0 then xor (shiftLeft l) rbConst else shiftLeft l
  let k2 := if (k1.getD 0 0) &&& 0x80 ≠ 0 then xor (shiftLeft k1) rbConst else shiftLeft k1
  ⟨k1, k2⟩

/-- Embedding of the source `calculateCmac`: subkey-adjusted last block, CBC-style
chaining over the full blocks before it, final encryption of accumulator XOR last
block. `Math.ceil(len / 16)` is rendered as `(len + 15) / 16` on naturals. -/
def calculateCmac (key data : List Nat) : List Nat :=
  let sk := generateSubkeys key
  let n := if data.length = 0 then 1 else (data.length + 15) / 16
  let lastBlockComplete := data.length ≠ 0 ∧ data.length % 16 = 0
  let startIndex := (n - 1) * 16
  let rem := data.length - startIndex
  let lastBlock :=
    if lastBlockComplete then (data.drop startIndex).take 16
    else (data.drop startIndex).take rem ++ 0x80 :: List.replicate (15 - rem) 0
  let subkey := if lastBlockComplete then sk.k1 else sk.k2
  let mLast := xor lastBlock subkey
  let x := (List.range (n - 1)).foldl
    (fun x i => aes128EncryptBlock key (xor x ((data.drop (i * 16)).take 16)))
    (List.replicate 16 0)
  aes128EncryptBlock key (xor x mLast)

/-- Embedding of the source `truncateCmac`: 8 bytes, taking input byte `2*i+1`
(0 when absent, as the preallocated output byte stays 0). -/
def truncateCmac (cmac : List Nat) : List Nat :=
  (List.range 8).map (fun i => cmac.getD (2 * i + 1) 0)

/-! ### Hex and string helpers, modelling Node's `Buffer`/`String` operations -/

/-- Value of one hexadecimal digit character, case-insensitive; `none` otherwise. -/
def hexVal (c : Char) : Option Nat :=
  if '0' ≤ c ∧ c ≤ '9' then some (c.toNat - 48)
  else if 'a' ≤ c ∧ c ≤ 'f' then some (c.toNat - 87)
  else if 'A' ≤ c ∧ c ≤ 'F' then some (c.toNat - 55)
  else none

/-- Node `Buffer.from(s, "hex")` semantics over a character list: decode pairs of hex
digits, stopping (without error) at the first invalid pair or at a lone trailing digit. -/
def parseHexChars : List Char → List Nat
  | c1 :: c2 :: rest =>
    match hexVal c1, hexVal c2 with
    | some h, some l => (16 * h + l) :: parseHexChars rest
    | _, _ => []
  | _ => []

/-- Node `Buffer.from(s, "hex")`. -/
def parseHex (s : String) : List Nat := parseHexChars s.toList

/-- The sixteen uppercase hexadecimal digit characters. -/
def hexDigitsU : List Char :=
  ['0', '1', '2', '3', '4', '5', '6', '7', '8', '9', 'A', 'B', 'C', 'D', 'E', 'F']

/-- Uppercase hexadecimal digit of `n % 16`. -/
def hexDigitU (n : Nat) : Char := hexDigitsU.getD (n % 16) '0'

/-- Node `buf.toString("hex").toUpperCase()`: two uppercase hex digits per byte. -/
def bytesToHexUpper (l : List Nat) : String :=
  String.mk (l.foldr (fun b acc => hexDigitU (b / 16) :: hexDigitU b :: acc) [])

/-- JS `String.prototype.toUpperCase` restricted to ASCII, which is all the library
feeds it (hex strings). -/
def toUpperStr (s : String) : String := String.mk (s.toList.map Char.toUpper)

/-- Test that a string consists only of uppercase hexadecimal digits. -/
def isUpperHexStr (s : String) : Bool := s.toList.all (fun c => c ∈ hexDigitsU)

/-- Test that a string is a well-formed hex byte string: even length, all hex digits. -/
def isWellFormedHex (s : String) : Bool :=
  s.toList.length % 2 = 0 && s.toList.all (fun c => (hexVal c).isSome)

/-! ### PICC decoder, embedded from `src/utils/ntag424.ts` -/

/-- Split a byte list into successive 16-byte blocks; the fuel argument (instantiated
with the list length) only makes the recursion structural. -/
def chunks16Aux : Nat → List Nat → List (List Nat)
  | 0, _ => []
  | _, [] => []
  | fuel + 1, l => l.take 16 :: chunks16Aux fuel (l.drop 16)

/-- Split a byte list into successive 16-byte blocks. -/
def chunks16 (l : List Nat) : List (List Nat) := chunks16Aux l.length l

/-- Embedding of the source `decryptPiccData`: `createDecipheriv` throws on a key that
is not 16 bytes and `final()` (auto-padding disabled) throws when the input length is
not a multiple of the block size; both are caught and surface as `null` (`none`).
Otherwise each 16-byte block is decrypted with AES-128-ECB. -/
def decryptPiccData (piccData sdmKey : List Nat) : Option (List Nat) :=
  if sdmKey.length ≠ 16 then none
  else if piccData.length % 16 ≠ 0 then none
  else some ((chunks16 piccData).map (aes128DecryptBlock sdmKey)).flatten

/-- Result record of `extractUidAndCounter`, mirroring the source `UidAndCounter`. -/
structure UidAndCounter where
  uid : List Nat
  counter : List Nat
  uidHex : String
  counterInt : Nat
deriving DecidableEq

/-- Node `buf.readUIntLE(0, 3)`: the 3-byte little-endian value. -/
def readUIntLE3 (l : List Nat) : Nat := l.getD 0 0 + 256 * l.getD 1 0 + 65536 * l.getD 2 0

/-- Embedding of the source `extractUidAndCounter`: fewer than 10 bytes is `null`;
at least 11 bytes consumes byte 0 as a tag marker, UID = bytes 1..8, counter =
bytes 8..11; exactly 10 bytes takes UID = bytes 0..7, counter = bytes 7..10. -/
def extractUidAndCounter (decrypted : List Nat) : Option UidAndCounter :=
  if decrypted.length < 10 then none
  else if 11 ≤ decrypted.length then
    let u := (decrypted.drop 1).take 7
    let c := (decrypted.drop 8).take 3
    some ⟨u, c, bytesToHexUpper u, readUIntLE3 c⟩
  else
    let u := decrypted.take 7
    let c := (decrypted.drop 7).take 3
    some ⟨u, c, bytesToHexUpper u, readUIntLE3 c⟩

/-! ### SDM session key derivation, embedded from `src/utils/ntag424.ts` -/

/-- Node `Buffer.writeUIntBE(v, 0, 3)` followed by `reverse()`: the little-endian
3-byte encoding of the counter. `writeUIntBE` throws a `RangeError` (surfaced here
as `none`) when the value is negative or does not fit in 3 bytes. -/
def readCtrBytesLE (readCtr : Int) : Option (List Nat) :=
  if readCtr < 0 ∨ 16777216 ≤ readCtr then none
  else
    some ([(readCtr.toNat >>> 16) &&& 255, (readCtr.toNat >>> 8) &&& 255,
           readCtr.toNat &&& 255].reverse)

/-- Embedding of the source `generateSdmSessionVector`. The options object is passed
as its two boolean fields (defaults in the source are both `true`). `none` models the
`RangeError` thrown while encoding an out-of-range counter. -/
def generateSdmSessionVector (purpose uid : List Nat) (readCtr : Int)
    (uidMirroring readCounter : Bool) : Option (List Nat) :=
  match readCtrBytesLE readCtr with
  | none => none
  | some rc =>
    let vec := purpose ++ [0x00, 0x01, 0x00, 0x80]
    some (if purpose = [0xC3, 0x3C] then vec ++ uid ++ rc
          else if purpose = [0x3C, 0xC3] then
            (vec ++ (if uidMirroring then uid else [])) ++ (if readCounter then rc else [])
          else vec)

/-- Embedding of the source `generateSdmSessionKey`: right-pad the session vector
with zero bytes to 16 when shorter, then CMAC it under the file read key. -/
def generateSdmSessionKey (fileReadKey purpose uid : List Nat) (readCtr : Int)
    (uidMirroring readCounter : Bool) : Option (List Nat) :=
  (generateSdmSessionVector purpose uid readCtr uidMirroring readCounter).map
    (fun sessionVector =>
      if sessionVector.length < 16 then
        calculateCmac fileReadKey (sessionVector ++ List.replicate (16 - sessionVector.length) 0)
      else calculateCmac fileReadKey sessionVector)

/-! ### Auth verifier, embedded from `src/types/index.ts` (`verifySdmAuth`) -/

/-- Result record of `verifySdmAuth`, mirroring the source `SdmAuthResult`; absent
optional fields are `none`, and the source's `method: null` is also `none`. -/
structure SdmAuthResult where
  success : Bool
  uid : Option String
  counter : Option Nat
  method : Option String
  calculatedCmac : Option String
  providedCmac : Option String
  error : Option String
deriving DecidableEq

/-- JS falsiness of an optional string: absent or empty. -/
def optFalsy : Option String → Bool
  | none => true
  | some s => s = ""

/-- Key resolution at the top of the source `verifySdmAuth`: a falsy caller-supplied
key falls back to the `NTAG424_SDM_KEY` environment value; if that is falsy too the
call fails with "SDM key not configured". -/
def resolveKey (sdmKeyHex envKey : Option String) : Option String :=
  if optFalsy sdmKeyHex then (if optFalsy envKey then none else envKey) else sdmKeyHex

/-- Failure result carrying only `success = false` and an error string, the shape of
every early return in the source `verifySdmAuth`. -/
def failResult (e : String) : SdmAuthResult := ⟨false, none, none, none, none, none, some e⟩

/-- Body of the source `verifySdmAuth` after key resolution. The dead branch for the
session-key `RangeError` (unreachable, as a 3-byte counter always fits) models the
outer `catch` returning the thrown message as the error. -/
def verifySdmAuthWithKey (piccDataHex providedCmacHex keyStr : String) : SdmAuthResult :=
  let piccData := parseHex piccDataHex
  let providedCmac := toUpperStr providedCmacHex
  let sdmKey := parseHex keyStr
  match decryptPiccData piccData sdmKey with
  | none => failResult "PICC data decryption failed"
  | some decrypted =>
    match extractUidAndCounter decrypted with
    | none => failResult "Failed to extract UID and counter"
    | some cmacData =>
      match generateSdmSessionKey sdmKey [0x3C, 0xC3] cmacData.uid
              (cmacData.counterInt : Int) true true with
      | none => failResult "RangeError"
      | some sessionMacKey =>
        let calculatedCmac := bytesToHexUpper (truncateCmac (calculateCmac sessionMacKey []))
        ⟨calculatedCmac == providedCmac, some cmacData.uidHex, some cmacData.counterInt,
         if calculatedCmac == providedCmac then some "Full mirroring with empty data" else none,
         some calculatedCmac, some providedCmac, none⟩

/-- Embedding of the source `verifySdmAuth`. The `NTAG424_SDM_KEY` environment value
is an explicit argument (`envKey`), since the environment is an external collaborator. -/
def verifySdmAuth (piccDataHex providedCmacHex : String) (sdmKeyHex envKey : Option String) :
    SdmAuthResult :=
  match resolveKey sdmKeyHex envKey with
  | none => failResult "SDM key not configured"
  | some keyStr => verifySdmAuthWithKey piccDataHex providedCmacHex keyStr

/-! ### Helper lemmas -/

theorem addRoundKey_length (rk s : List Nat) : (addRoundKey rk s).length = 16 := by
  simp [addRoundKey]

theorem aes128EncryptBlock_length (key block : List Nat) :
    (aes128EncryptBlock key block).length = 16 := by
  simp [aes128EncryptBlock, addRoundKey]

theorem aes128DecryptBlock_length (key block : List Nat) :
    (aes128DecryptBlock key block).length = 16 := by
  simp [aes128DecryptBlock, addRoundKey]

theorem mem_addRoundKey_le {b : Nat} {rk s : List Nat} (h : b ∈ addRoundKey rk s) : b ≤ 255 := by
  simp only [addRoundKey, List.mem_map] at h
  obtain ⟨i, _, rfl⟩ := h
  exact Nat.and_le_right

theorem mem_aes128DecryptBlock_le {b : Nat} {key block : List Nat}
    (h : b ∈ aes128DecryptBlock key block) : b ≤ 255 :=
  mem_addRoundKey_le h

theorem xor_length (a b : List Nat) : (Ntag424.xor a b).length = max a.length b.length := by
  simp [Ntag424.xor]

theorem shiftLeft_length (l : List Nat) : (shiftLeft l).length = l.length := by
  simp [shiftLeft]

theorem getD_le_255 {l : List Nat} (h : ∀ x ∈ l, x ≤ 255) (i : Nat) : l.getD i 0 ≤ 255 := by
  rcases Nat.lt_or_ge i l.length with h1 | h1
  · rw [List.getD_eq_getElem _ _ h1]
    exact h _ (List.getElem_mem h1)
  · rw [List.getD_eq_default _ _ h1]
    omega

theorem readUIntLE3_lt {c : List Nat} (h : ∀ x ∈ c, x ≤ 255) : readUIntLE3 c < 16777216 := by
  have h0 := getD_le_255 h 0
  have h1 := getD_le_255 h 1
  have h2 := getD_le_255 h 2
  unfold readUIntLE3
  omega

theorem chunks16Aux_flatten_length (key : List Nat) :
    ∀ (fuel : Nat) (l : List Nat), l.length ≤ fuel → l.length % 16 = 0 →
      (((chunks16Aux fuel l).map (aes128DecryptBlock key)).flatten).length = l.length := by
  intro fuel
  induction fuel with
  | zero =>
    intro l hl _
    have hnil : l = [] := List.eq_nil_of_length_eq_zero (by omega)
    subst hnil
    rfl
  | succ n ih =>
    intro l hl hm
    cases l with
    | nil => rfl
    | cons a as =>
      simp only [List.length_cons] at hl hm
      have hlen : 16 ≤ as.length + 1 := by omega
      have hrec := ih ((a :: as).drop 16)
        (by simp only [List.length_drop, List.length_cons]; omega)
        (by simp only [List.length_drop, List.length_cons]; omega)
      show ((aes128DecryptBlock key ((a :: as).take 16)) ::
        (chunks16Aux n ((a :: as).drop 16)).map (aes128DecryptBlock key)).flatten.length =
        (a :: as).length
      rw [List.flatten_cons, List.length_append, aes128DecryptBlock_length, hrec]
      simp only [List.length_drop, List.length_cons]
      omega

theorem decryptPiccData_eq_none_iff (piccData sdmKey : List Nat) :
    decryptPiccData piccData sdmKey = none ↔ sdmKey.length ≠ 16 ∨ piccData.length % 16 ≠ 0 := by
  unfold decryptPiccData
  split_ifs with h1 h2 <;> simp_all

theorem decryptPiccData_some_eq {piccData sdmKey : List Nat}
    (hk : sdmKey.length = 16) (hm : piccData.length % 16 = 0) :
    decryptPiccData piccData sdmKey =
      some ((chunks16 piccData).map (aes128DecryptBlock sdmKey)).flatten := by
  rw [decryptPiccData, if_neg (by omega), if_neg (by omega)]

theorem decryptPiccData_some_conds {piccData sdmKey pt : List Nat}
    (h : decryptPiccData piccData sdmKey = some pt) :
    sdmKey.length = 16 ∧ piccData.length % 16 = 0 ∧
      pt = ((chunks16 piccData).map (aes128DecryptBlock sdmKey)).flatten := by
  have hne : decryptPiccData piccData sdmKey ≠ none := by simp [h]
  have hcond := decryptPiccData_eq_none_iff piccData sdmKey
  have hk : sdmKey.length = 16 := by
    by_contra hc
    exact hne (hcond.mpr (Or.inl hc))
  have hm : piccData.length % 16 = 0 := by
    by_contra hc
    exact hne (hcond.mpr (Or.inr hc))
  have h2 := decryptPiccData_some_eq hk hm
  rw [h, Option.some.injEq] at h2
  exact ⟨hk, hm, h2⟩

theorem decryptPiccData_some_length {piccData sdmKey pt : List Nat}
    (h : decryptPiccData piccData sdmKey = some pt) : pt.length = piccData.length := by
  obtain ⟨hk, hm, hpt⟩ := decryptPiccData_some_conds h
  subst hpt
  exact chunks16Aux_flatten_length sdmKey piccData.length piccData le_rfl hm

theorem mem_decryptPiccData_le {piccData sdmKey pt : List Nat}
    (h : decryptPiccData piccData sdmKey = some pt) : ∀ b ∈ pt, b ≤ 255 := by
  obtain ⟨hk, hm, hpt⟩ := decryptPiccData_some_conds h
  subst hpt
  intro b hb
  rw [List.mem_flatten] at hb
  obtain ⟨blk, hblk, hb⟩ := hb
  rw [List.mem_map] at hblk
  obtain ⟨orig, _, rfl⟩ := hblk
  exact mem_aes128DecryptBlock_le hb

theorem extractUidAndCounter_eq_none_iff (d : List Nat) :
    extractUidAndCounter d = none ↔ d.length < 10 := by
  unfold extractUidAndCounter
  split_ifs <;> simp_all

theorem extractUidAndCounter_counterInt_lt {d : List Nat} {u : UidAndCounter}
    (hd : ∀ b ∈ d, b ≤ 255) (h : extractUidAndCounter d = some u) :
    u.counterInt < 16777216 := by
  unfold extractUidAndCounter at h
  split_ifs at h <;>
  · rw [Option.some.injEq] at h
    subst h
    exact readUIntLE3_lt (fun x hx => hd x (List.mem_of_mem_drop (List.mem_of_mem_take hx)))

theorem hexDigitU_mem (n : Nat) : hexDigitU n ∈ hexDigitsU := by
  have h : n % 16 < hexDigitsU.length := by
    have : n % 16 < 16 := Nat.mod_lt _ (by omega)
    simpa [hexDigitsU]
  rw [hexDigitU, List.getD_eq_getElem _ _ h]
  exact List.getElem_mem h

theorem toList_mk (cs : List Char) : (String.mk cs).toList = cs := rfl

theorem subkeyStep_length (l : List Nat) (hl : l.length = 16) :
    (if l.getD 0 0 &&& 0x80 ≠ 0 then Ntag424.xor (shiftLeft l) rbConst else shiftLeft l).length =
      16 := by
  split_ifs <;> simp [xor_length, shiftLeft_length, rbConst, hl]

theorem isUpperHexStr_bytesToHexUpper (l : List Nat) :
    isUpperHexStr (bytesToHexUpper l) = true := by
  rw [isUpperHexStr, bytesToHexUpper, toList_mk]
  induction l with
  | nil => rfl
  | cons b bs ih =>
    simp only [List.foldr_cons, List.all_cons, Bool.and_eq_true, decide_eq_true_eq]
    exact ⟨hexDigitU_mem _, ⟨hexDigitU_mem _, ih⟩⟩

/-! ### Definitions transcribed from the specification's wording, for refinement claims -/

/-- Block count as the spec words it: 1 for empty data, otherwise the ceiling of
`len(data) / 16`. -/
def cmacBlockCountFromSpec (data : List Nat) : Nat :=
  if data.length = 0 then 1 else (data.length + 15) / 16

/-- Last CMAC block as the spec words it: the final 16 bytes of `data` XORed with K1
when data is non-empty and block-complete; otherwise the final incomplete block
followed by a single 0x80 byte and zero-fill to 16 bytes, XORed with K2. -/
def cmacLastBlockFromSpec (k1 k2 data : List Nat) : List Nat :=
  if data.length ≠ 0 ∧ data.length % 16 = 0 then
    Ntag424.xor (data.drop (data.length - 16)) k1
  else
    Ntag424.xor (data.drop (16 * (data.length / 16)) ++ 0x80 :: List.replicate (15 - data.length % 16) 0) k2

/-- CBC-style chaining as the spec words it: from a 16-byte zero accumulator X,
for every full block before the last, X becomes `Encrypt(X XOR block)`. -/
def cmacChainFromSpec (key data : List Nat) : List Nat :=
  (List.range (cmacBlockCountFromSpec data - 1)).foldl
    (fun x i => aes128EncryptBlock key (Ntag424.xor x ((data.drop (i * 16)).take 16)))
    (List.replicate 16 0)

/-! ### Claim theorems -/

/-- Claim C1: for every 16-byte key and every byte sequence `data`, `calculateCmac` returns
exactly 16 bytes, equal to the encryption of the CBC-chain accumulator over the `n-1`
full blocks before the last (n = 1 for empty data, else the ceiling of len/16) XORed
with the subkey-adjusted last block: the final 16 bytes XORed with K1 when data is
non-empty and block-complete, otherwise the trailing incomplete block plus a 0x80
byte and zero padding, XORed with K2. -/
theorem calculateCmac_matches_spec (key data : List Nat) (hk : key.length = 16) :
    calculateCmac key data =
      aes128EncryptBlock key
        (Ntag424.xor (cmacChainFromSpec key data)
          (cmacLastBlockFromSpec (generateSubkeys key).k1 (generateSubkeys key).k2 data)) ∧
    (calculateCmac key data).length = 16 := by
  refine ⟨?_, aes128EncryptBlock_length key _⟩
  unfold calculateCmac cmacChainFromSpec cmacLastBlockFromSpec cmacBlockCountFromSpec
  by_cases hm : data.length ≠ 0 ∧ data.length % 16 = 0
  · have hn : (if data.length = 0 then 1 else (data.length + 15) / 16) =
        (data.length + 15) / 16 := if_neg hm.1
    have hidx : ((data.length + 15) / 16 - 1) * 16 = data.length - 16 := by
      obtain ⟨h1, h2⟩ := hm
      omega
    have htake : (data.drop (data.length - 16)).take 16 = data.drop (data.length - 16) :=
      List.take_of_length_le (by
        rw [List.length_drop]
        obtain ⟨h1, h2⟩ := hm
        omega)
    simp only [if_pos hm, hn, hidx, htake]
  · by_cases h0 : data.length = 0
    · have hnil : data = [] := List.length_eq_zero.mp h0
      subst hnil
      rfl
    · have hm2 : data.length % 16 ≠ 0 := fun hc => hm ⟨h0, hc⟩
      have hn : (if data.length = 0 then 1 else (data.length + 15) / 16) =
          (data.length + 15) / 16 := if_neg h0
      have hidx : ((data.length + 15) / 16 - 1) * 16 = 16 * (data.length / 16) := by omega
      have hrem : data.length - 16 * (data.length / 16) = data.length % 16 := by omega
      have htake : (data.drop (16 * (data.length / 16))).take (data.length % 16) =
          data.drop (16 * (data.length / 16)) :=
        List.take_of_length_le (by rw [List.length_drop]; omega)
      simp only [if_neg hm, hn, hidx, hrem, htake]

/-- Witness for claim C1: the theorem at the all-zero 16-byte key and empty data. -/
theorem calculateCmac_matches_spec_witness :
    calculateCmac (List.replicate 16 0) [] =
      aes128EncryptBlock (List.replicate 16 0)
        (Ntag424.xor (cmacChainFromSpec (List.replicate 16 0) [])
          (cmacLastBlockFromSpec (generateSubkeys (List.replicate 16 0)).k1
            (generateSubkeys (List.replicate 16 0)).k2 [])) ∧
    (calculateCmac (List.replicate 16 0) []).length = 16 :=
  calculateCmac_matches_spec (List.replicate 16 0) [] (by simp)

/-- Claim C3: for every 16-byte input, `truncateCmac` returns exactly 8 bytes, byte `i` of
the output being input byte `2*i+1`, and on the spec's example input
`1234567890ABCDEF1234567890ABCDEF` it returns `3478ABEF3478ABEF`. -/
theorem truncateCmac_matches_spec (cmac : List Nat) (h : cmac.length = 16) :
    (truncateCmac cmac).length = 8 ∧
    (∀ i, i < 8 → (truncateCmac cmac).getD i 0 = cmac.getD (2 * i + 1) 0) ∧
    truncateCmac [0x12, 0x34, 0x56, 0x78, 0x90, 0xAB, 0xCD, 0xEF,
                  0x12, 0x34, 0x56, 0x78, 0x90, 0xAB, 0xCD, 0xEF] =
      [0x34, 0x78, 0xAB, 0xEF, 0x34, 0x78, 0xAB, 0xEF] := by
  refine ⟨by simp [truncateCmac], ?_, by decide⟩
  intro i hi
  have hlen : i < ((List.range 8).map (fun j => cmac.getD (2 * j + 1) 0)).length := by
    simp only [List.length_map, List.length_range]
    omega
  rw [truncateCmac, List.getD_eq_getElem _ _ hlen]
  simp [hi]

/-- Witness for claim C3: the theorem at a concrete 16-byte input. -/
theorem truncateCmac_matches_spec_witness :
    (truncateCmac [0x12, 0x34, 0x56, 0x78, 0x90, 0xAB, 0xCD, 0xEF,
                   0x12, 0x34, 0x56, 0x78, 0x90, 0xAB, 0xCD, 0xEF]).length = 8 :=
  (truncateCmac_matches_spec _ (by decide)).1

/-- Claim C4: for every 16-byte key, `generateSubkeys` returns K1 and K2, both 16 bytes:
K1 is the left shift of `L = Encrypt(0^16)`, XORed with the constant `0x00..0087`
exactly when L's top bit is set, and K2 repeats the step from K1. (Determinism is
intrinsic: the embedding is a pure function of the key.) -/
theorem generateSubkeys_matches_spec (key : List Nat) (hk : key.length = 16) :
    ((generateSubkeys key).k1 =
      (if (aes128EncryptBlock key (List.replicate 16 0)).getD 0 0 &&& 0x80 ≠ 0 then
        Ntag424.xor (shiftLeft (aes128EncryptBlock key (List.replicate 16 0))) rbConst
      else shiftLeft (aes128EncryptBlock key (List.replicate 16 0)))) ∧
    ((generateSubkeys key).k2 =
      (if (generateSubkeys key).k1.getD 0 0 &&& 0x80 ≠ 0 then
        Ntag424.xor (shiftLeft (generateSubkeys key).k1) rbConst
      else shiftLeft (generateSubkeys key).k1)) ∧
    (generateSubkeys key).k1.length = 16 ∧ (generateSubkeys key).k2.length = 16 := by
  have h1 : (generateSubkeys key).k1 =
      (if (aes128EncryptBlock key (List.replicate 16 0)).getD 0 0 &&& 0x80 ≠ 0 then
        Ntag424.xor (shiftLeft (aes128EncryptBlock key (List.replicate 16 0))) rbConst
      else shiftLeft (aes128EncryptBlock key (List.replicate 16 0))) := rfl
  have hl1 : (generateSubkeys key).k1.length = 16 := by
    rw [h1]
    exact subkeyStep_length _ (aes128EncryptBlock_length key _)
  refine ⟨h1, rfl, hl1, ?_⟩
  have h2 : (generateSubkeys key).k2 =
      (if (generateSubkeys key).k1.getD 0 0 &&& 0x80 ≠ 0 then
        Ntag424.xor (shiftLeft (generateSubkeys key).k1) rbConst
      else shiftLeft (generateSubkeys key).k1) := rfl
  rw [h2]
  exact subkeyStep_length _ hl1

/-- Witness for claim C4: the theorem at the all-zero 16-byte key. -/
theorem generateSubkeys_matches_spec_witness :
    (generateSubkeys (List.replicate 16 0)).k1.length = 16 ∧
    (generateSubkeys (List.replicate 16 0)).k2.length = 16 :=
  ⟨(generateSubkeys_matches_spec (List.replicate 16 0) (by simp)).2.2.1,
   (generateSubkeys_matches_spec (List.replicate 16 0) (by simp)).2.2.2⟩

/-- Claim C5: `extractUidAndCounter` returns `none` below 10 bytes; at 11 bytes or more it
consumes byte 0 and returns UID = bytes 1..8 and counter = bytes 8..11; at exactly
10 bytes it returns UID = bytes 0..7 and counter = bytes 7..10; the counter integer
is the 3-byte little-endian value, the UID hex is uppercase, and the two concrete
examples of the spec hold. -/
theorem extractUidAndCounter_matches_spec :
    (∀ d : List Nat, d.length < 10 → extractUidAndCounter d = none) ∧
    (∀ d : List Nat, 11 ≤ d.length →
      extractUidAndCounter d = some ⟨(d.drop 1).take 7, (d.drop 8).take 3,
        bytesToHexUpper ((d.drop 1).take 7), readUIntLE3 ((d.drop 8).take 3)⟩) ∧
    (∀ d : List Nat, d.length = 10 →
      extractUidAndCounter d = some ⟨d.take 7, (d.drop 7).take 3,
        bytesToHexUpper (d.take 7), readUIntLE3 ((d.drop 7).take 3)⟩) ∧
    (∀ (d : List Nat) (u : UidAndCounter), extractUidAndCounter d = some u →
      isUpperHexStr u.uidHex = true) ∧
    extractUidAndCounter
        [0x04, 0x12, 0x34, 0x56, 0x78, 0x90, 0xAB, 0xCD, 0xEF, 0x12, 0x34, 0x56] =
      some ⟨[0x12, 0x34, 0x56, 0x78, 0x90, 0xAB, 0xCD], [0xEF, 0x12, 0x34],
        "1234567890ABCD", 0x3412EF⟩ ∧
    extractUidAndCounter [0x12, 0x34, 0x56, 0x78, 0x90, 0xAB, 0xCD, 0xEF, 0x12, 0x34, 0x56] =
      some ⟨[0x34, 0x56, 0x78, 0x90, 0xAB, 0xCD, 0xEF], [0x12, 0x34, 0x56],
        "34567890ABCDEF", 0x563412⟩ := by
  refine ⟨?_, ?_, ?_, ?_, by decide, by decide⟩
  · intro d h
    exact (extractUidAndCounter_eq_none_iff d).mpr h
  · intro d h
    rw [extractUidAndCounter, if_neg (by omega), if_pos h]
  · intro d h
    rw [extractUidAndCounter, if_neg (by omega), if_neg (by omega)]
  · intro d u h
    unfold extractUidAndCounter at h
    split_ifs at h <;>
    · rw [Option.some.injEq] at h
      subst h
      exact isUpperHexStr_bytesToHexUpper _

/-- Witness for claim C5: the 11-or-more branch of the theorem at the spec's 12-byte example. -/
theorem extractUidAndCounter_matches_spec_witness :
    extractUidAndCounter
        [0x04, 0x12, 0x34, 0x56, 0x78, 0x90, 0xAB, 0xCD, 0xEF, 0x12, 0x34, 0x56] =
      some ⟨([0x04, 0x12, 0x34, 0x56, 0x78, 0x90, 0xAB, 0xCD, 0xEF, 0x12, 0x34,
          (0x56 : Nat)].drop 1).take 7,
        ([0x04, 0x12, 0x34, 0x56, 0x78, 0x90, 0xAB, 0xCD, 0xEF, 0x12, 0x34,
          (0x56 : Nat)].drop 8).take 3,
        bytesToHexUpper (([0x04, 0x12, 0x34, 0x56, 0x78, 0x90, 0xAB, 0xCD, 0xEF, 0x12, 0x34,
          (0x56 : Nat)].drop 1).take 7),
        readUIntLE3 (([0x04, 0x12, 0x34, 0x56, 0x78, 0x90, 0xAB, 0xCD, 0xEF, 0x12, 0x34,
          (0x56 : Nat)].drop 8).take 3)⟩ :=
  extractUidAndCounter_matches_spec.2.1 _ (by decide)

/-- The session vector exists (no `RangeError`) whenever the counter is in range. -/
theorem generateSdmSessionVector_isSome (purpose uid : List Nat) (readCtr : Int)
    (uidMirroring readCounter : Bool) (h0 : 0 ≤ readCtr) (h1 : readCtr < 16777216) :
    ∃ v, generateSdmSessionVector purpose uid readCtr uidMirroring readCounter = some v := by
  rw [generateSdmSessionVector, readCtrBytesLE, if_neg (by omega)]
  exact ⟨_, rfl⟩

/-- The extraction succeeds whenever at least 10 bytes are available. -/
theorem extractUidAndCounter_isSome {d : List Nat} (h : 10 ≤ d.length) :
    ∃ u, extractUidAndCounter d = some u := by
  rw [extractUidAndCounter, if_neg (by omega)]
  by_cases h11 : 11 ≤ d.length
  · rw [if_pos h11]
    exact ⟨_, rfl⟩
  · rw [if_neg h11]
    exact ⟨_, rfl⟩

/-- Claim C6: `generateSdmSessionVector` is the purpose bytes plus the constant
`00 01 00 80`, then UID and little-endian counter for the encryption purpose
`C3 3C` (unconditionally), UID under `uidMirroring` and counter under
`readCounter` for the MAC purpose `3C C3`, and nothing further for any other
purpose; the counter bytes are the big-endian 3-byte encoding reversed. -/
theorem generateSdmSessionVector_matches_spec (purpose uid : List Nat) (readCtr : Int)
    (uidMirroring readCounter : Bool) (h0 : 0 ≤ readCtr) (h1 : readCtr < 16777216) :
    generateSdmSessionVector purpose uid readCtr uidMirroring readCounter =
      some (if purpose = [0xC3, 0x3C] then
          (purpose ++ [0x00, 0x01, 0x00, 0x80]) ++ uid ++
            [(readCtr.toNat >>> 16) &&& 255, (readCtr.toNat >>> 8) &&& 255,
             readCtr.toNat &&& 255].reverse
        else if purpose = [0x3C, 0xC3] then
          (purpose ++ [0x00, 0x01, 0x00, 0x80]) ++ (if uidMirroring then uid else []) ++
            (if readCounter then
              [(readCtr.toNat >>> 16) &&& 255, (readCtr.toNat >>> 8) &&& 255,
               readCtr.toNat &&& 255].reverse
             else [])
        else purpose ++ [0x00, 0x01, 0x00, 0x80]) := by
  have hrc : readCtrBytesLE readCtr = some ([(readCtr.toNat >>> 16) &&& 255,
      (readCtr.toNat >>> 8) &&& 255, readCtr.toNat &&& 255].reverse) := by
    rw [readCtrBytesLE, if_neg (by omega)]
  rw [generateSdmSessionVector, hrc]

/-- Witness for claim C6: the theorem at the encryption purpose, a concrete UID and counter 5. -/
theorem generateSdmSessionVector_matches_spec_witness :
    generateSdmSessionVector [0xC3, 0x3C] [1, 2, 3, 4, 5, 6, 7] 5 true true =
      some [0xC3, 0x3C, 0x00, 0x01, 0x00, 0x80, 1, 2, 3, 4, 5, 6, 7, 5, 0, 0] := by
  have h := generateSdmSessionVector_matches_spec [0xC3, 0x3C] [1, 2, 3, 4, 5, 6, 7] 5
    true true (by decide) (by decide)
  rw [h]
  decide

/-- Claim C7: `generateSdmSessionKey` right-pads the session vector with zero bytes to
16 when shorter, leaves it unpadded otherwise, and returns the 16-byte
`calculateCmac` of it under the file read key. -/
theorem generateSdmSessionKey_matches_spec (fileReadKey purpose uid : List Nat)
    (readCtr : Int) (uidMirroring readCounter : Bool)
    (h0 : 0 ≤ readCtr) (h1 : readCtr < 16777216) :
    ∃ v, generateSdmSessionVector purpose uid readCtr uidMirroring readCounter = some v ∧
      generateSdmSessionKey fileReadKey purpose uid readCtr uidMirroring readCounter =
        some (if v.length < 16 then
            calculateCmac fileReadKey (v ++ List.replicate (16 - v.length) 0)
          else calculateCmac fileReadKey v) ∧
      ∀ k, generateSdmSessionKey fileReadKey purpose uid readCtr uidMirroring readCounter =
          some k → k.length = 16 := by
  obtain ⟨v, hv⟩ :=
    generateSdmSessionVector_isSome purpose uid readCtr uidMirroring readCounter h0 h1
  refine ⟨v, hv, ?_, ?_⟩
  · rw [generateSdmSessionKey, hv]
    rfl
  · intro k hk
    rw [generateSdmSessionKey, hv] at hk
    simp only [Option.map_some', Option.some.injEq] at hk
    subst hk
    split_ifs <;> exact aes128EncryptBlock_length _ _

/-- Witness for claim C7: the theorem at a zero key, MAC purpose, concrete UID and counter 5. -/
theorem generateSdmSessionKey_matches_spec_witness :
    ∃ v, generateSdmSessionVector [0x3C, 0xC3] [1, 2, 3, 4, 5, 6, 7] 5 true true = some v ∧
      generateSdmSessionKey (List.replicate 16 0) [0x3C, 0xC3] [1, 2, 3, 4, 5, 6, 7] 5
          true true =
        some (if v.length < 16 then
            calculateCmac (List.replicate 16 0) (v ++ List.replicate (16 - v.length) 0)
          else calculateCmac (List.replicate 16 0) v) ∧
      ∀ k, generateSdmSessionKey (List.replicate 16 0) [0x3C, 0xC3] [1, 2, 3, 4, 5, 6, 7] 5
          true true = some k → k.length = 16 :=
  generateSdmSessionKey_matches_spec (List.replicate 16 0) [0x3C, 0xC3] [1, 2, 3, 4, 5, 6, 7]
    5 true true (by decide) (by decide)

/-- Claim C10: the session vector (hence the session key) fails with the modelled
`RangeError` exactly when the counter is negative or at least 2^24, and both
functions return normally for every in-range counter and 7-byte UID. -/
theorem sdmSessionKey_readCtr_range (fileReadKey purpose uid : List Nat) (readCtr : Int)
    (uidMirroring readCounter : Bool) (hu : uid.length = 7) :
    (generateSdmSessionVector purpose uid readCtr uidMirroring readCounter = none ↔
      readCtr < 0 ∨ 16777216 ≤ readCtr) ∧
    (generateSdmSessionKey fileReadKey purpose uid readCtr uidMirroring readCounter = none ↔
      readCtr < 0 ∨ 16777216 ≤ readCtr) := by
  by_cases hr : readCtr < 0 ∨ 16777216 ≤ readCtr
  · have h1 : generateSdmSessionVector purpose uid readCtr uidMirroring readCounter = none := by
      rw [generateSdmSessionVector, readCtrBytesLE, if_pos hr]
    have h2 : generateSdmSessionKey fileReadKey purpose uid readCtr uidMirroring readCounter =
        none := by
      rw [generateSdmSessionKey, h1]
      rfl
    exact ⟨⟨fun _ => hr, fun _ => h1⟩, ⟨fun _ => hr, fun _ => h2⟩⟩
  · push_neg at hr
    obtain ⟨v, hv⟩ := generateSdmSessionVector_isSome purpose uid readCtr uidMirroring
      readCounter hr.1 (by omega)
    refine ⟨⟨fun hc => ?_, fun hc => absurd hc (by omega)⟩,
            ⟨fun hc => ?_, fun hc => absurd hc (by omega)⟩⟩
    · rw [hv] at hc
      cases hc
    · rw [generateSdmSessionKey, hv] at hc
      simp at hc

/-- Witness for claim C10: the theorem applied at counter -1 (out of range below). -/
theorem sdmSessionKey_readCtr_range_witness :
    generateSdmSessionVector [0x3C, 0xC3] (List.replicate 7 0) (-1) true true = none :=
  ((sdmSessionKey_readCtr_range (List.replicate 16 0) [0x3C, 0xC3] (List.replicate 7 0)
    (-1) true true (by simp)).1).mpr (Or.inl (by decide))

/-- Claim C8 as amended: `decryptPiccData` is absent exactly when the key is not 16 bytes or
the input length is not a multiple of the 16-byte block size (the zero-length input is
accepted, unlike the claim's "positive multiple"); on success the plaintext has the
input's length. -/
theorem decryptPiccData_matches_spec (piccData sdmKey : List Nat) :
    (decryptPiccData piccData sdmKey = none ↔
      sdmKey.length ≠ 16 ∨ piccData.length % 16 ≠ 0) ∧
    ∀ pt, decryptPiccData piccData sdmKey = some pt → pt.length = piccData.length :=
  ⟨decryptPiccData_eq_none_iff piccData sdmKey, fun _ h => decryptPiccData_some_length h⟩

/-- Witness for claim C8: the none branch of the theorem at a 1-byte input. -/
theorem decryptPiccData_matches_spec_witness :
    decryptPiccData [1] (List.replicate 16 0) = none :=
  (decryptPiccData_matches_spec [1] (List.replicate 16 0)).1.mpr (Or.inr (by decide))

/-- Counterexample to claim C8: the empty input is decrypted successfully (to the empty buffer)
under a valid 16-byte key, although its length 0 is not a positive multiple of the
block size, where the claim requires an absent result. -/
theorem decryptPiccData_empty_cex :
    decryptPiccData [] (List.replicate 16 0) = some [] ∧
    (List.replicate 16 (0 : Nat)).length = 16 := by
  exact ⟨rfl, by simp⟩

/-- Claim C2 as amended: on every call that reaches the CMAC comparison (the supplied key
hex parses to 16 bytes, the PICC hex parses to a multiple of 16 bytes of at least 10),
`verifySdmAuth` returns `providedCmac` as the uppercased caller input and
`calculatedCmac` as an uppercase-hex string; the early failure returns carry neither. -/
theorem verifySdmAuth_returns_cmacs (piccDataHex providedCmacHex keyStr : String)
    (envKey : Option String) (hne : keyStr ≠ "")
    (hkl : (parseHex keyStr).length = 16)
    (hpm : (parseHex piccDataHex).length % 16 = 0)
    (hp10 : 10 ≤ (parseHex piccDataHex).length) :
    (verifySdmAuth piccDataHex providedCmacHex (some keyStr) envKey).providedCmac =
      some (toUpperStr providedCmacHex) ∧
    ∃ s, (verifySdmAuth piccDataHex providedCmacHex (some keyStr) envKey).calculatedCmac =
      some s ∧ isUpperHexStr s = true := by
  have hres : resolveKey (some keyStr) envKey = some keyStr := by
    simp [resolveKey, optFalsy, hne]
  obtain ⟨pt, hpt⟩ : ∃ pt, decryptPiccData (parseHex piccDataHex) (parseHex keyStr) =
      some pt := by
    rw [decryptPiccData_some_eq hkl hpm]
    exact ⟨_, rfl⟩
  have hptlen : 10 ≤ pt.length := by
    rw [decryptPiccData_some_length hpt]
    exact hp10
  obtain ⟨u, hu⟩ := extractUidAndCounter_isSome hptlen
  have hcnt : u.counterInt < 16777216 :=
    extractUidAndCounter_counterInt_lt (mem_decryptPiccData_le hpt) hu
  obtain ⟨k, hk⟩ : ∃ k, generateSdmSessionKey (parseHex keyStr) [0x3C, 0xC3] u.uid
      (u.counterInt : Int) true true = some k := by
    obtain ⟨v, hv⟩ := generateSdmSessionVector_isSome [0x3C, 0xC3] u.uid
      (u.counterInt : Int) true true (by exact_mod_cast Nat.zero_le _) (by exact_mod_cast hcnt)
    rw [generateSdmSessionKey, hv]
    exact ⟨_, rfl⟩
  rw [verifySdmAuth, hres]
  simp only [verifySdmAuthWithKey, hpt, hu, hk]
  exact ⟨by trivial, ⟨_, by trivial, isUpperHexStr_bytesToHexUpper _⟩⟩

/-- Witness for claim C2: the theorem at a 16-zero-byte PICC hex and key hex. -/
theorem verifySdmAuth_returns_cmacs_witness :
    (verifySdmAuth "00000000000000000000000000000000" "ab"
      (some "00000000000000000000000000000000") none).providedCmac =
        some (toUpperStr "ab") ∧
    ∃ s, (verifySdmAuth "00000000000000000000000000000000" "ab"
      (some "00000000000000000000000000000000") none).calculatedCmac =
        some s ∧ isUpperHexStr s = true :=
  verifySdmAuth_returns_cmacs "00000000000000000000000000000000" "ab"
    "00000000000000000000000000000000" none (by decide) (by decide) (by decide) (by decide)

/-- Counterexample to claim C2: with no key supplied and none in the environment, the call
fails early and the result carries neither `calculatedCmac` nor `providedCmac`,
refuting "always returns both ... regardless of outcome". -/
theorem verifySdmAuth_missing_cmacs_cex :
    verifySdmAuth "00" "ab" none none =
      ⟨false, none, none, none, none, none, some "SDM key not configured"⟩ := by
  rfl

/-- Claim C9 as amended: a supplied key hex that does not parse to exactly 16 bytes (in
particular malformed hex, which Node's parser silently truncates) makes the call
fail at the decryption step with "PICC data decryption failed"; the function always
returns a result rather than throwing. -/
theorem verifySdmAuth_badKeyHex (piccDataHex providedCmacHex keyStr : String)
    (envKey : Option String) (hne : keyStr ≠ "")
    (hkl : (parseHex keyStr).length ≠ 16) :
    verifySdmAuth piccDataHex providedCmacHex (some keyStr) envKey =
      failResult "PICC data decryption failed" := by
  have hres : resolveKey (some keyStr) envKey = some keyStr := by
    simp [resolveKey, optFalsy, hne]
  have hdec : decryptPiccData (parseHex piccDataHex) (parseHex keyStr) = none :=
    (decryptPiccData_eq_none_iff _ _).mpr (Or.inl hkl)
  rw [verifySdmAuth, hres]
  simp only [verifySdmAuthWithKey, hdec]

/-- Witness for claim C9: the theorem at the malformed key hex "ZZ". -/
theorem verifySdmAuth_badKeyHex_witness :
    verifySdmAuth "00" "ab" (some "ZZ") none = failResult "PICC data decryption failed" :=
  verifySdmAuth_badKeyHex "00" "ab" "ZZ" none (by decide) (by decide)

set_option maxRecDepth 1000000 in
/-- Counterexample to claim C9: a malformed `piccDataHex` (odd length, trailing non-hex "Z")
does not terminate with a failure at the hex-parsing step: Node's hex parsing
silently truncates, the 16 decoded bytes decrypt and verify, and with the matching
CMAC the call succeeds outright. -/
theorem verifySdmAuth_malformedHex_success_cex :
    (verifySdmAuth "00000000000000000000000000000000Z" "d152a28f99426ad2"
      (some "00000000000000000000000000000000") none).success = true ∧
    isWellFormedHex "00000000000000000000000000000000Z" = false := by
  constructor
  · decide
  · decide

end Ntag424
